import Mathlib

/-!
# Verification of the nrf52-hal SPI driver core

Shallow embedding of `src/nrf52-hal-common/src/spim.rs` and
`src/nrf52-hal-common/src/spi.rs` (the DMA-driven SPIM driver, the legacy
SPI driver, and the non-blocking full-duplex byte channel built on the
legacy register layout), together with proofs about the embedded
operations.

Conventions of the embedding:
- machine integers are `Nat`, with `% 256` where the source reads or
  writes an 8-bit register field;
- memory addresses are not modelled: pointer-register writes are recorded
  in the trace with value `0`;
- each driver operation returns, besides its result, the list of hardware
  interactions it performed, in program order (`Ev` below), so that
  "no register is touched", "the fence is issued", "chip select ends
  high" are statements about that list;
- the unbounded busy-wait loops on event registers are recorded as a
  single `Ev.waitEvent` interaction: the code spins until the register
  reads non-zero, with no other observable effect;
- hardware responses (the values the `AMOUNT` registers read after
  completion, and the bytes the receive DMA channel deposited) are an
  environment parameter, since they are produced by the peripheral, not
  by the code.
-/

/-- The peripheral registers the driver code touches, across both the
SPIM (DMA) register layout and the legacy SPI layout of the same address
range. -/
inductive Reg where
  | txdPtr | txdMaxcnt | txdAmount
  | rxdPtr | rxdMaxcnt | rxdAmount
  | tasksStart | tasksStarttx | tasksStartrx | tasksStop
  | eventsEnd | eventsLasttx | eventsLastrx | eventsStopped
  | address | shorts
  deriving DecidableEq, Repr

/-- One hardware interaction performed by a driver operation. -/
inductive Ev where
  /-- A write of `v` to peripheral register `r`. -/
  | regWrite (r : Reg) (v : Nat)
  /-- A read of peripheral register `r` that returned `v`. -/
  | regRead (r : Reg) (v : Nat)
  /-- The busy-wait loop `while r.read().bits() == 0 {}`: spins until
  event register `r` reads non-zero. -/
  | waitEvent (r : Reg)
  /-- The chip-select pin driven to `level` (`true` = high = inactive). -/
  | csSet (level : Bool)
  /-- `compiler_fence(AcqRel)`. -/
  | fence
  /-- A byte-channel `FullDuplex::send` call completed: byte `b` was
  written to the transmit shift register `TXD`. -/
  | sendDone (b : Nat)
  /-- A byte-channel `FullDuplex::read` call completed, returning byte
  `b` from the receive shift register `RXD`. -/
  | recvDone (b : Nat)
  deriving DecidableEq, Repr

/-- The error enum `SPIError` declared at the bottom of `spim.rs`. -/
inductive SPIError where
  | txBufferTooLong
  | rxBufferTooLong
  | transmit
  | receive
  deriving DecidableEq, Repr

namespace SpiChannel

/-!
## The non-blocking full-duplex byte channel

`impl FullDuplex<u8> for Spim<T>` in `spim.rs` casts the SPIM register
block to the legacy `spi0::RegisterBlock` layout and polls its single
`EVENTS_READY` register. The registers this layout exposes to the two
primitives are `events_ready`, `rxd` and `txd`.
-/

/-- One observation of the legacy-layout registers the byte channel
reads or writes: the `EVENTS_READY` event register, the receive shift
register `RXD`, and the transmit shift register `TXD`. -/
structure SpiRegs where
  events_ready : Nat
  rxd : Nat
  txd : Nat
  deriving DecidableEq, Repr

/-- `FullDuplex::read` from `spim.rs`: if `events_ready` reads `1`,
report `WouldBlock` (`none`); otherwise return the low byte of `RXD`
(`rxd.read().bits() & 0xFF`). -/
def fdRead (s : SpiRegs) : Option Nat :=
  if s.events_ready = 1 then
    none
  else
    some (s.rxd % 256)

/-- `FullDuplex::send` from `spim.rs`: if `events_ready` reads `0`,
report `WouldBlock` (`none`); otherwise write the byte into `TXD` and
report completion, returning the updated registers. -/
def fdSend (s : SpiRegs) (word : Nat) : Option SpiRegs :=
  if s.events_ready = 0 then
    none
  else
    some { s with txd := word % 256 }

/-- `block!(self.send(word))` in `Transfer::transfer`: retry the
non-blocking send until it completes. The hardware's evolution between
polls is modelled as a stream of register observations, one consumed per
poll; `none` means the stream was exhausted before the send completed
(in the real code that call never returns — it spins forever). On
completion, returns the `TXD` write performed and the rest of the
stream. -/
def blockSend (word : Nat) : List SpiRegs → Option (List Ev × List SpiRegs)
  | [] => none
  | s :: rest =>
    match fdSend s word with
    | none => blockSend word rest
    | some s' => some ([Ev.sendDone s'.txd], rest)

/-- `block!(FullDuplex::read(self))` in `Transfer::transfer`: retry the
non-blocking receive until it completes, against the same stream-of-
observations model as `blockSend`. On completion, returns the byte read
from `RXD`, the read event, and the rest of the stream. -/
def blockRecv : List SpiRegs → Option (Nat × List Ev × List SpiRegs)
  | [] => none
  | s :: rest =>
    match fdRead s with
    | none => blockRecv rest
    | some b => some (b, [Ev.recvDone b], rest)

/-- `Transfer::transfer` from `spim.rs`: for each word in the buffer, in
order, block on sending the original word, then block on receiving, and
overwrite that position with the received byte; on success return the
overwritten buffer. Also returns the completed-interaction trace and
the remaining observation stream. -/
def transfer : List SpiRegs → List Nat →
    Option (List Nat × List Ev × List SpiRegs)
  | stream, [] => some ([], [], stream)
  | stream, w :: ws =>
    match blockSend w stream with
    | none => none
    | some (tr1, s1) =>
      match blockRecv s1 with
      | none => none
      | some (r, tr2, s2) =>
        match transfer s2 ws with
        | none => none
        | some (rs, tr3, s3) => some (r :: rs, tr1 ++ tr2 ++ tr3, s3)

end SpiChannel

namespace Spim

/-!
## The DMA-driven SPIM driver (`spim.rs`)

`Spim::read` and `Spim::write` are embedded as functions of the
chip-select pin's current level, the caller's buffers, and the
hardware's responses (`Env`). They return the `Result`, the buffer and
pin state after the call, and the hardware-interaction trace.
-/

/-- The peripheral's responses during one SPIM transaction: the values
the `TXD.AMOUNT` and `RXD.AMOUNT` registers read after the `END` event,
and the bytes the receive DMA channel deposited into memory. -/
structure Env where
  txAmount : Nat
  rxAmount : Nat
  rxData : List Nat
  deriving Repr

/-- The over-read character `Spim::new` programs into the `ORC`
register: `0`. -/
def orc : Nat := 0

/-- The receive buffer after the DMA engine deposited `data` into it:
`data` overwrites a prefix in place, the rest keeps its old content. -/
def dmaDeposit (data buffer : List Nat) : List Nat :=
  data.take buffer.length ++ buffer.drop data.length

/-- `Spim::read` from `spim.rs`: validate both buffer lengths, drive
chip select high (inactive), program the transmit and receive DMA
descriptors, drive chip select low and trigger the start task, spin on
the `END` event, clear it, drive chip select high, then compare both
`AMOUNT` registers against the requested lengths and fence on success.

Returns (result, receive buffer after the call, chip-select level after
the call, trace). -/
def read (chipSelect : Bool) (txBuffer rxBuffer : List Nat) (env : Env) :
    Except SPIError Unit × List Nat × Bool × List Ev :=
  if txBuffer.length > 255 then
    (Except.error SPIError.txBufferTooLong, rxBuffer, chipSelect, [])
  else if rxBuffer.length > 255 then
    (Except.error SPIError.rxBufferTooLong, rxBuffer, chipSelect, [])
  else
    let setup : List Ev :=
      [Ev.csSet true,
       Ev.regWrite Reg.txdPtr 0,
       Ev.regWrite Reg.txdMaxcnt txBuffer.length,
       Ev.regWrite Reg.rxdPtr 0,
       Ev.regWrite Reg.rxdMaxcnt rxBuffer.length,
       Ev.csSet false,
       Ev.regWrite Reg.tasksStart 1,
       Ev.waitEvent Reg.eventsEnd,
       Ev.regWrite Reg.eventsEnd 0,
       Ev.csSet true]
    let rxAfter := dmaDeposit env.rxData rxBuffer
    let tr1 := setup ++ [Ev.regRead Reg.txdAmount env.txAmount]
    if env.txAmount ≠ txBuffer.length then
      (Except.error SPIError.transmit, rxAfter, true, tr1)
    else
      let tr2 := tr1 ++ [Ev.regRead Reg.rxdAmount env.rxAmount]
      if env.rxAmount ≠ rxBuffer.length then
        (Except.error SPIError.receive, rxAfter, true, tr2)
      else
        (Except.ok (), rxAfter, true, tr2 ++ [Ev.fence])

/-- `Spim::write` from `spim.rs`: validate the buffer length, drive chip
select high, program the transmit descriptor, program the receive
channel's byte count to `0` (its pointer register is not written), drive
chip select low and trigger the start task, spin on the `END` event,
clear it, drive chip select high, then compare `TXD.AMOUNT` against the
requested length and fence on success.

Returns (result, chip-select level after the call, trace). -/
def write (chipSelect : Bool) (txBuffer : List Nat) (env : Env) :
    Except SPIError Unit × Bool × List Ev :=
  if txBuffer.length > 255 then
    (Except.error SPIError.txBufferTooLong, chipSelect, [])
  else
    let setup : List Ev :=
      [Ev.csSet true,
       Ev.regWrite Reg.txdPtr 0,
       Ev.regWrite Reg.txdMaxcnt txBuffer.length,
       Ev.regWrite Reg.rxdMaxcnt 0,
       Ev.csSet false,
       Ev.regWrite Reg.tasksStart 1,
       Ev.waitEvent Reg.eventsEnd,
       Ev.regWrite Reg.eventsEnd 0,
       Ev.csSet true]
    let tr1 := setup ++ [Ev.regRead Reg.txdAmount env.txAmount]
    if env.txAmount ≠ txBuffer.length then
      (Except.error SPIError.transmit, true, tr1)
    else
      (Except.ok (), true, tr1 ++ [Ev.fence])

/-- Loopback wiring (MOSI fed back to MISO): the byte clocked out at
position `i` is the `i`-th transmit byte while the transmit buffer
lasts and the programmed over-read character afterwards; the slave
echoes every byte, the receive channel captures the first `rxLen` of
them, and both `AMOUNT` registers report the full requested counts. -/
def loopbackEnv (txBuffer : List Nat) (rxLen : Nat) : Env :=
  { txAmount := txBuffer.length
    rxAmount := rxLen
    rxData := (List.range rxLen).map
      (fun i => if i < txBuffer.length then txBuffer.getD i 0 else orc) }

end Spim

namespace Spi

/-!
## The legacy SPI driver (`spi.rs`)

`Spi::write`, `Spi::read` and `Spi::write_then_read` are embedded as
functions of the address byte, the caller's buffers, and the hardware's
responses. The bytes the receive DMA channel deposits are produced by
the peripheral, not the code, and no claim concerns them here, so these
embeddings return only the `Result` and the hardware-interaction trace.
-/

/-- The error enum `Error` declared at the bottom of `spi.rs`: it offers
per-direction too-long variants, `TxBufferTooLong` and
`RxBufferTooLong`. -/
inductive Error where
  | txBufferTooLong
  | rxBufferTooLong
  | transmit
  | receive
  deriving DecidableEq, Repr

/-- The error values the function bodies of `spi.rs` actually construct.
All three length checks return `Error::BufferTooLong` — a single,
direction-agnostic variant that the declared `Error` enum does not even
contain (it declares `TxBufferTooLong` and `RxBufferTooLong` instead),
so the file does not typecheck as written. This type collects the
variants as named at the return sites. -/
inductive ErrorUsed where
  | bufferTooLong
  | transmit
  | receive
  deriving DecidableEq, Repr

/-- The peripheral's responses during one legacy transaction: the values
the `TXD.AMOUNT` and `RXD.AMOUNT` registers read after completion. -/
structure Env where
  txAmount : Nat
  rxAmount : Nat
  deriving Repr

/-- `Spi::write` from `spi.rs`: validate the buffer length, write the
address register, program the transmit descriptor, trigger the
start-transmit task, spin on `LASTTX` and clear it, trigger the stop
task, spin on `STOPPED` and clear it, then compare `TXD.AMOUNT` against
the requested length and fence on success. -/
def write (address : Nat) (buffer : List Nat) (env : Env) :
    Except ErrorUsed Unit × List Ev :=
  if buffer.length > 255 then
    (Except.error ErrorUsed.bufferTooLong, [])
  else
    let tr :=
      [Ev.regWrite Reg.address (address % 256),
       Ev.regWrite Reg.txdPtr 0,
       Ev.regWrite Reg.txdMaxcnt buffer.length,
       Ev.regWrite Reg.tasksStarttx 1,
       Ev.waitEvent Reg.eventsLasttx,
       Ev.regWrite Reg.eventsLasttx 0,
       Ev.regWrite Reg.tasksStop 1,
       Ev.waitEvent Reg.eventsStopped,
       Ev.regWrite Reg.eventsStopped 0,
       Ev.regRead Reg.txdAmount env.txAmount]
    if env.txAmount ≠ buffer.length then
      (Except.error ErrorUsed.transmit, tr)
    else
      (Except.ok (), tr ++ [Ev.fence])

/-- `Spi::read` from `spi.rs`: validate the buffer length, write the
address register, program the receive descriptor, trigger the
start-receive task, spin on `LASTRX` and clear it, trigger the stop
task, spin on `STOPPED` and clear it, then compare `RXD.AMOUNT` against
the requested length and fence on success. -/
def read (address : Nat) (buffer : List Nat) (env : Env) :
    Except ErrorUsed Unit × List Ev :=
  if buffer.length > 255 then
    (Except.error ErrorUsed.bufferTooLong, [])
  else
    let tr :=
      [Ev.regWrite Reg.address (address % 256),
       Ev.regWrite Reg.rxdPtr 0,
       Ev.regWrite Reg.rxdMaxcnt buffer.length,
       Ev.regWrite Reg.tasksStartrx 1,
       Ev.waitEvent Reg.eventsLastrx,
       Ev.regWrite Reg.eventsLastrx 0,
       Ev.regWrite Reg.tasksStop 1,
       Ev.waitEvent Reg.eventsStopped,
       Ev.regWrite Reg.eventsStopped 0,
       Ev.regRead Reg.rxdAmount env.rxAmount]
    if env.rxAmount ≠ buffer.length then
      (Except.error ErrorUsed.receive, tr)
    else
      (Except.ok (), tr ++ [Ev.fence])

/-- `Spi::write_then_read` from `spi.rs`: validate both buffer lengths,
write the address register, program both DMA descriptors, enable the
`LASTTX->STARTRX` and `LASTRX->STOP` shorts (recorded as writing `1` to
the shorts register; clearing them is recorded as writing `0`), trigger
the start-transmit task, spin on the single `STOPPED` event, clear all
three event registers and the shorts, read both `AMOUNT` registers,
fence, and only then return transmit mismatch, receive mismatch, or
success — so the fence is on every post-completion path here. -/
def writeThenRead (address : Nat) (wrBuffer rdBuffer : List Nat)
    (env : Env) : Except ErrorUsed Unit × List Ev :=
  if wrBuffer.length > 255 then
    (Except.error ErrorUsed.bufferTooLong, [])
  else if rdBuffer.length > 255 then
    (Except.error ErrorUsed.bufferTooLong, [])
  else
    let tr :=
      [Ev.regWrite Reg.address (address % 256),
       Ev.regWrite Reg.txdPtr 0,
       Ev.regWrite Reg.txdMaxcnt wrBuffer.length,
       Ev.regWrite Reg.rxdPtr 0,
       Ev.regWrite Reg.rxdMaxcnt rdBuffer.length,
       Ev.regWrite Reg.shorts 1,
       Ev.regWrite Reg.tasksStarttx 1,
       Ev.waitEvent Reg.eventsStopped,
       Ev.regWrite Reg.eventsLasttx 0,
       Ev.regWrite Reg.eventsLastrx 0,
       Ev.regWrite Reg.eventsStopped 0,
       Ev.regWrite Reg.shorts 0,
       Ev.regRead Reg.txdAmount env.txAmount,
       Ev.regRead Reg.rxdAmount env.rxAmount,
       Ev.fence]
    if env.txAmount ≠ wrBuffer.length then
      (Except.error ErrorUsed.transmit, tr)
    else if env.rxAmount ≠ rdBuffer.length then
      (Except.error ErrorUsed.receive, tr)
    else
      (Except.ok (), tr)

end Spi

section ByteChannelTheorems

open SpiChannel

/-- C8: the byte-channel send primitive reports not-ready exactly when
the transmit-ready event register reads zero, and otherwise writes the
byte into the transmit shift register and reports completed. -/
theorem fdSend_not_ready_iff_zero (s : SpiRegs) (word : Nat) :
    (fdSend s word = none ↔ s.events_ready = 0) ∧
    (s.events_ready ≠ 0 →
      fdSend s word = some { s with txd := word % 256 }) := by
  constructor
  · unfold fdSend
    split <;> simp_all
  · intro h
    unfold fdSend
    simp [h]

/-- Witness for C8 at a concrete ready state: sending `0x37` when
`events_ready = 1` writes `0x37` into `TXD`. -/
theorem fdSend_not_ready_iff_zero_witness :
    fdSend ⟨1, 0, 0⟩ 0x37 = some ⟨1, 0, 0x37⟩ :=
  (fdSend_not_ready_iff_zero ⟨1, 0, 0⟩ 0x37).2 (by decide)

/-- C4 counterexample: when the receive-ready event register reads `2`
— a non-zero, hence fired, reading per the register-level contract — the
receive primitive does not report not-ready as the claim requires: it
returns a byte although the register does not read clear. The code
compares the register against the exact value `1`, not against zero. -/
theorem fdRead_returns_byte_on_nonzero_nonone :
    fdRead ⟨2, 5, 0⟩ = some 5 ∧ (2 : Nat) ≠ 0 := by decide

/-- C4 amended: the receive primitive reports not-ready exactly when the
receive-ready event register reads the exact value `1`, and for any
other reading (zero included) returns the low byte of the receive shift
register. -/
theorem fdRead_not_ready_iff_one (s : SpiRegs) :
    (fdRead s = none ↔ s.events_ready = 1) ∧
    (s.events_ready ≠ 1 → fdRead s = some (s.rxd % 256)) := by
  constructor
  · unfold fdRead
    split <;> simp_all
  · intro h
    unfold fdRead
    simp [h]

/-- Witness for the amended C4 at a concrete state: with the event
register clear, the byte in `RXD` is returned. -/
theorem fdRead_not_ready_iff_one_witness :
    fdRead ⟨0, 0x41, 0⟩ = some (0x41 % 256) :=
  (fdRead_not_ready_iff_one ⟨0, 0x41, 0⟩).2 (by decide)

/-- C9 counterexample: the two byte-channel primitives do not poll
distinct independent readiness bits. If send's decision were a function
of one hardware bit and receive's of another, independent, bit, every
combination of the two decisions would be realisable by some hardware
state; but in the code both decisions are functions of the single shared
`EVENTS_READY` register (send not-ready iff it reads `0`, receive
not-ready iff it reads `1`), so "send not ready and receive not ready"
would need that one register to read `0` and `1` at once. -/
theorem no_independent_readiness_bits :
    ¬ ∃ txReady rxReady : SpiRegs → Bool,
      (∀ s w, (fdSend s w).isSome = txReady s) ∧
      (∀ s, (fdRead s).isSome = rxReady s) ∧
      (∀ b1 b2 : Bool, ∃ s, txReady s = b1 ∧ rxReady s = b2) := by
  rintro ⟨tx, rx, hs, hr, hall⟩
  obtain ⟨s, h1, h2⟩ := hall false false
  have hsend := hs s 0
  have hread := hr s
  rw [h1] at hsend
  rw [h2] at hread
  by_cases hz : s.events_ready = 0
  · have h1' : s.events_ready ≠ 1 := by omega
    simp [fdRead, h1'] at hread
  · simp [fdSend, hz] at hsend

/-- C9 amended: both byte-channel primitives poll the same single
`EVENTS_READY` register of the legacy layout, with opposite polarities:
send is ready exactly when it reads non-zero, receive exactly when it
reads anything but `1`; consequently in every state at least one of the
two directions reports ready. -/
theorem byte_channel_shared_ready_register (s : SpiRegs) (w : Nat) :
    ((fdSend s w).isSome = true ↔ s.events_ready ≠ 0) ∧
    ((fdRead s).isSome = true ↔ s.events_ready ≠ 1) ∧
    ((fdSend s w).isSome = true ∨ (fdRead s).isSome = true) := by
  refine ⟨?_, ?_, ?_⟩
  · unfold fdSend
    split <;> simp_all
  · unfold fdRead
    split <;> simp_all
  · by_cases hz : s.events_ready = 0
    · have h1 : s.events_ready ≠ 1 := by omega
      right
      simp [fdRead, h1]
    · left
      simp [fdSend, hz]

/-- Helper: a completed blocking send performed exactly the write of the
(masked) word into `TXD`. -/
theorem blockSend_trace (word : Nat) :
    ∀ stream tr s1, blockSend word stream = some (tr, s1) →
      tr = [Ev.sendDone (word % 256)] := by
  intro stream
  induction stream with
  | nil =>
    intro tr s1 h
    simp [blockSend] at h
  | cons s rest ih =>
    intro tr s1 h
    by_cases hz : s.events_ready = 0
    · simp only [blockSend, fdSend, if_pos hz] at h
      exact ih tr s1 h
    · simp only [blockSend, fdSend, if_neg hz, Option.some.injEq,
        Prod.mk.injEq] at h
      simp [← h.1]

/-- Helper: a completed blocking receive performed exactly the read of
the returned byte from `RXD`. -/
theorem blockRecv_trace :
    ∀ stream b tr s2, blockRecv stream = some (b, tr, s2) →
      tr = [Ev.recvDone b] := by
  intro stream
  induction stream with
  | nil =>
    intro b tr s2 h
    simp [blockRecv] at h
  | cons s rest ih =>
    intro b tr s2 h
    by_cases h1 : s.events_ready = 1
    · simp only [blockRecv, fdRead, if_pos h1] at h
      exact ih b tr s2 h
    · simp only [blockRecv, fdRead, if_neg h1, Option.some.injEq,
        Prod.mk.injEq] at h
      simp [← h.1, ← h.2.1]

/-- C6: `transfer` processes byte positions strictly in order. Whenever
it succeeds, the output buffer has one received byte per input position,
and the completed-interaction trace is exactly, for each position `i` in
order, the send of the original byte at `i` followed by the receive that
produced the byte now at `i` — so each receive completes after its send
and before any interaction of the next position. -/
theorem transfer_strictly_ordered :
    ∀ (words : List Nat) (stream : List SpiRegs) (res : List Nat)
      (tr : List Ev) (rest : List SpiRegs),
      transfer stream words = some (res, tr, rest) →
      res.length = words.length ∧
      tr = (List.zipWith
        (fun w r => [Ev.sendDone (w % 256), Ev.recvDone r]) words res).flatten := by
  intro words
  induction words with
  | nil =>
    intro stream res tr rest h
    simp [transfer] at h
    simp [h.1, h.2.1]
  | cons w ws ih =>
    intro stream res tr rest h
    cases hbs : blockSend w stream with
    | none => simp [transfer, hbs] at h
    | some p1 =>
      obtain ⟨tr1, s1⟩ := p1
      cases hbr : blockRecv s1 with
      | none => simp [transfer, hbs, hbr] at h
      | some p2 =>
        obtain ⟨r, tr2, s2⟩ := p2
        cases htf : transfer s2 ws with
        | none => simp [transfer, hbs, hbr, htf] at h
        | some p3 =>
          obtain ⟨rs, tr3, s3⟩ := p3
          simp only [transfer, hbs, hbr, htf, Option.some.injEq,
            Prod.mk.injEq] at h
          obtain ⟨hres, htr, -⟩ := h
          obtain ⟨hlen, hjoin⟩ := ih s2 rs tr3 s3 htf
          subst hres htr
          refine ⟨by simp [hlen], ?_⟩
          rw [blockSend_trace w stream tr1 s1 hbs,
            blockRecv_trace s1 r tr2 s2 hbr]
          simp [hjoin]

/-- Witness for C6 on a concrete two-observation stream: transferring
the one-byte buffer `[5]` completes with received buffer `[9]` and trace
"send 5 completed, then receive 9 completed". -/
theorem transfer_strictly_ordered_witness :
    ([9] : List Nat).length = ([5] : List Nat).length ∧
    ([Ev.sendDone 5, Ev.recvDone 9] : List Ev) =
      (List.zipWith (fun w r => [Ev.sendDone (w % 256), Ev.recvDone r])
        ([5] : List Nat) ([9] : List Nat)).flatten :=
  transfer_strictly_ordered [5] [⟨1, 9, 0⟩, ⟨0, 9, 0⟩] [9]
    [Ev.sendDone 5, Ev.recvDone 9] [] (by decide)

end ByteChannelTheorems

section DmaTheorems

set_option maxRecDepth 4096 in
/-- C1: evaluation of the legacy driver at the failing inputs. A
300-byte-class buffer (here 256 bytes) makes `Spi::write` fail before
touching any register — but with the direction-agnostic
`Error::BufferTooLong` named at the return site, a variant the declared
`Error` enum does not contain, instead of the declared per-direction
`TxBufferTooLong`; likewise the receive-buffer check of
`Spi::write_then_read` names `BufferTooLong`, not `RxBufferTooLong`. -/
theorem legacy_too_long_not_direction_specific :
    Spi.write 0 (List.replicate 256 0) ⟨256, 0⟩ =
      (Except.error Spi.ErrorUsed.bufferTooLong, []) ∧
    Spi.writeThenRead 0 [] (List.replicate 256 0) ⟨0, 0⟩ =
      (Except.error Spi.ErrorUsed.bufferTooLong, []) := by
  constructor <;> rfl

set_option maxRecDepth 4096 in
/-- C2 counterexample: a buffer-too-long validation return never touches
the chip-select pin, so a pin that is active (low) at entry is still low
when the call returns — the final observed level is not inactive. -/
theorem chip_select_low_after_validation_error :
    (Spim.read false (List.replicate 256 0) [] ⟨0, 0, []⟩).2.2.1 = false ∧
    (Spim.read false (List.replicate 256 0) [] ⟨0, 0, []⟩).1 =
      Except.error SPIError.txBufferTooLong := by
  constructor <;> rfl

/-- C2 amended: on every `Spim::read`/`Spim::write` call that passes the
length validation, the chip-select pin ends inactive (high) whatever the
outcome; buffer-too-long validation returns leave the pin untouched, so
on those paths the level is inactive only when it already was at
entry. -/
theorem chip_select_ends_inactive (cs : Bool) (txBuffer rxBuffer : List Nat)
    (env : Spim.Env) :
    (txBuffer.length ≤ 255 → rxBuffer.length ≤ 255 →
      (Spim.read cs txBuffer rxBuffer env).2.2.1 = true) ∧
    (cs = true → (Spim.read cs txBuffer rxBuffer env).2.2.1 = cs) ∧
    (txBuffer.length ≤ 255 → (Spim.write cs txBuffer env).2.1 = true) ∧
    (cs = true → (Spim.write cs txBuffer env).2.1 = cs) := by
  refine ⟨?_, ?_, ?_, ?_⟩
  · intro htx hrx
    unfold Spim.read
    split_ifs with h1 h2 h3 <;> first | rfl | omega
  · intro hcs
    unfold Spim.read
    split_ifs <;> simp [hcs]
  · intro htx
    unfold Spim.write
    split_ifs <;> first | rfl | omega
  · intro hcs
    unfold Spim.write
    split_ifs <;> simp [hcs]

/-- Witness for the amended C2: a concrete valid read ends with the
chip-select pin high even though it started low, and a concrete
too-long write that started high returns with it high. -/
theorem chip_select_ends_inactive_witness :
    (Spim.read false [1] [2] ⟨1, 1, [7]⟩).2.2.1 = true ∧
    (Spim.write true (List.replicate 256 0) ⟨0, 0, []⟩).2.1 = true :=
  ⟨(chip_select_ends_inactive false [1] [2] ⟨1, 1, [7]⟩).1
      (by decide) (by decide),
   (chip_select_ends_inactive true (List.replicate 256 0) []
      ⟨0, 0, []⟩).2.2.2 rfl⟩

/-- C3 counterexample: on the transmit-amount-mismatch path of
`Spim::write` the call returns the error without ever issuing the
compiler fence — the fence only sits on the success path. -/
theorem fence_skipped_on_transmit_mismatch :
    (Spim.write true [5] ⟨0, 0, []⟩).1 = Except.error SPIError.transmit ∧
    Ev.fence ∉ (Spim.write true [5] ⟨0, 0, []⟩).2.2 := by
  constructor
  · rfl
  · decide

/-- C3 amended: the acquire-release compiler fence is the last hardware
interaction on every successful return of all five DMA-based operations,
and in `Spi::write_then_read` it is issued on every post-validation path
(mismatch errors included); but the amount-mismatch error paths of the
four single-direction operations return before the fence, as the last
conjuncts record for `Spim::write` and `Spim::read`. -/
theorem fence_after_completion (cs : Bool) (address : Nat)
    (tx rx : List Nat) (envm : Spim.Env) (envl : Spi.Env) :
    ((Spim.read cs tx rx envm).1 = Except.ok () →
      ((Spim.read cs tx rx envm).2.2.2).getLast? = some Ev.fence) ∧
    ((Spim.write cs tx envm).1 = Except.ok () →
      ((Spim.write cs tx envm).2.2).getLast? = some Ev.fence) ∧
    ((Spi.write address tx envl).1 = Except.ok () →
      ((Spi.write address tx envl).2).getLast? = some Ev.fence) ∧
    ((Spi.read address rx envl).1 = Except.ok () →
      ((Spi.read address rx envl).2).getLast? = some Ev.fence) ∧
    (tx.length ≤ 255 → rx.length ≤ 255 →
      Ev.fence ∈ (Spi.writeThenRead address tx rx envl).2) ∧
    ((Spim.write cs tx envm).1 = Except.error SPIError.transmit →
      Ev.fence ∉ (Spim.write cs tx envm).2.2) ∧
    ((Spim.read cs tx rx envm).1 = Except.error SPIError.transmit →
      Ev.fence ∉ (Spim.read cs tx rx envm).2.2.2) := by
  refine ⟨?_, ?_, ?_, ?_, ?_, ?_, ?_⟩
  · unfold Spim.read
    split_ifs <;> intro h <;> simp_all
  · unfold Spim.write
    split_ifs <;> intro h <;> simp_all
  · unfold Spi.write
    split_ifs <;> intro h <;> simp_all
  · unfold Spi.read
    split_ifs <;> intro h <;> simp_all
  · intro htx hrx
    unfold Spi.writeThenRead
    split_ifs <;> first | omega | simp
  · unfold Spim.write
    split_ifs <;> intro h <;> simp_all
  · unfold Spim.read
    split_ifs <;> intro h <;> simp_all

/-- Witness for the amended C3 at concrete inputs: a successful
`Spim::read` ends its trace with the fence, and a concrete
`Spi::write_then_read` whose transmit amount mismatches still contains
the fence in its trace. -/
theorem fence_after_completion_witness :
    ((Spim.read true [1] [2, 3] ⟨1, 2, [7, 8]⟩).2.2.2).getLast? =
      some Ev.fence ∧
    Ev.fence ∈ (Spi.writeThenRead 0 [1] [2, 3] ⟨9, 9⟩).2 :=
  ⟨(fence_after_completion true 0 [1] [2, 3] ⟨1, 2, [7, 8]⟩ ⟨9, 9⟩).1 rfl,
   (fence_after_completion true 0 [1] [2, 3] ⟨1, 2, [7, 8]⟩ ⟨9, 9⟩).2.2.2.2.1
      (by decide) (by decide)⟩

/-- C5: after a completed DMA transfer, an amount register differing
from the requested buffer length yields the matching per-direction
mismatch error, in every operation of both variants; and where both
directions are checked (`Spim::read`, `Spi::write_then_read`), a
transmit mismatch is reported even if the receive amount also
mismatches — transmit takes priority. -/
theorem amount_mismatch_errors (cs : Bool) (address : Nat)
    (tx rx : List Nat) (envm : Spim.Env) (envl : Spi.Env)
    (htx : tx.length ≤ 255) (hrx : rx.length ≤ 255) :
    (envm.txAmount ≠ tx.length →
      (Spim.read cs tx rx envm).1 = Except.error SPIError.transmit) ∧
    (envm.txAmount = tx.length → envm.rxAmount ≠ rx.length →
      (Spim.read cs tx rx envm).1 = Except.error SPIError.receive) ∧
    (envm.txAmount ≠ tx.length →
      (Spim.write cs tx envm).1 = Except.error SPIError.transmit) ∧
    (envl.txAmount ≠ tx.length →
      (Spi.write address tx envl).1 = Except.error Spi.ErrorUsed.transmit) ∧
    (envl.rxAmount ≠ rx.length →
      (Spi.read address rx envl).1 = Except.error Spi.ErrorUsed.receive) ∧
    (envl.txAmount ≠ tx.length →
      (Spi.writeThenRead address tx rx envl).1 =
        Except.error Spi.ErrorUsed.transmit) ∧
    (envl.txAmount = tx.length → envl.rxAmount ≠ rx.length →
      (Spi.writeThenRead address tx rx envl).1 =
        Except.error Spi.ErrorUsed.receive) := by
  refine ⟨?_, ?_, ?_, ?_, ?_, ?_, ?_⟩
  · intro h
    unfold Spim.read
    split_ifs <;> first | rfl | omega
  · intro h1 h2
    unfold Spim.read
    split_ifs <;> first | rfl | omega
  · intro h
    unfold Spim.write
    split_ifs <;> first | rfl | omega
  · intro h
    unfold Spi.write
    split_ifs <;> first | rfl | omega
  · intro h
    unfold Spi.read
    split_ifs <;> first | rfl | omega
  · intro h
    unfold Spi.writeThenRead
    split_ifs <;> first | rfl | omega
  · intro h1 h2
    unfold Spi.writeThenRead
    split_ifs <;> first | rfl | omega

/-- Witness for C5 at concrete inputs: a `Spim::read` whose hardware
reports both amounts wrong returns the transmit error, and a
`Spi::write_then_read` whose receive amount alone is wrong returns the
receive error. -/
theorem amount_mismatch_errors_witness :
    (Spim.read true [1] [2, 3] ⟨9, 9, []⟩).1 =
      Except.error SPIError.transmit ∧
    (Spi.writeThenRead 0 [1] [2, 3] ⟨1, 9⟩).1 =
      Except.error Spi.ErrorUsed.receive :=
  ⟨(amount_mismatch_errors true 0 [1] [2, 3] ⟨9, 9, []⟩ ⟨1, 9⟩
      (by decide) (by decide)).1 (by decide),
   (amount_mismatch_errors true 0 [1] [2, 3] ⟨9, 9, []⟩ ⟨1, 9⟩
      (by decide) (by decide)).2.2.2.2.2.2 (by decide) (by decide)⟩

end DmaTheorems

section LoopbackAndFrameTheorems

/-- Helper: indexing with default into a map over `List.range`. -/
theorem getD_map_range (f : Nat → Nat) (m i : Nat) (h : i < m) :
    ((List.range m).map f).getD i 0 = f i := by
  rw [List.getD_eq_getElem?_getD]
  simp [List.getElem?_map, List.getElem?_range, h]

/-- Helper: what `Spim::read` returns under the loopback environment —
success, and the receive buffer replaced by the echoed wire bytes. -/
theorem spim_read_loopback_eq (cs : Bool) (tx rx : List Nat)
    (htx : tx.length ≤ 255) (hrx : rx.length ≤ 255) :
    (Spim.read cs tx rx (Spim.loopbackEnv tx rx.length)).1 =
      Except.ok () ∧
    (Spim.read cs tx rx (Spim.loopbackEnv tx rx.length)).2.1 =
      (List.range rx.length).map
        (fun i => if i < tx.length then tx.getD i 0 else Spim.orc) := by
  have htake : ((List.range rx.length).map
      (fun i => if i < tx.length then tx.getD i 0 else Spim.orc)).take
        rx.length =
      (List.range rx.length).map
        (fun i => if i < tx.length then tx.getD i 0 else Spim.orc) :=
    List.take_of_length_le (by simp)
  unfold Spim.read
  rw [if_neg (by omega), if_neg (by omega)]
  constructor
  · simp [Spim.loopbackEnv]
  · simp [Spim.loopbackEnv, Spim.dmaDeposit, htake]

/-- C7: under loopback wiring (the slave returns exactly the bytes the
master transmits), a `Spim::read` with valid buffer lengths succeeds,
its receive buffer holds the transmitted bytes in the first
`min(tx, rx)` positions, and the programmed over-read character `0` in
every remaining position. -/
theorem loopback_read (cs : Bool) (tx rx : List Nat)
    (htx : tx.length ≤ 255) (hrx : rx.length ≤ 255) :
    (Spim.read cs tx rx (Spim.loopbackEnv tx rx.length)).1 =
      Except.ok () ∧
    (∀ i, i < min tx.length rx.length →
      (Spim.read cs tx rx (Spim.loopbackEnv tx rx.length)).2.1.getD i 0 =
        tx.getD i 0) ∧
    (∀ i, tx.length ≤ i → i < rx.length →
      (Spim.read cs tx rx (Spim.loopbackEnv tx rx.length)).2.1.getD i 0 =
        Spim.orc) := by
  obtain ⟨hok, hbuf⟩ := spim_read_loopback_eq cs tx rx htx hrx
  refine ⟨hok, ?_, ?_⟩
  · intro i hi
    rw [hbuf, getD_map_range _ _ _ (by omega), if_pos (by omega)]
  · intro i hlo hhi
    rw [hbuf, getD_map_range _ _ _ (by omega), if_neg (by omega)]

/-- Witness for C7 on the concrete loopback scenario `tx = [1,2,3]`,
`rx` of five bytes: the call succeeds, position 1 echoes the transmitted
byte, and position 4 (beyond the transmit buffer) holds the over-read
character. -/
theorem loopback_read_witness :
    (Spim.read true [1, 2, 3] [9, 9, 9, 9, 9]
        (Spim.loopbackEnv [1, 2, 3] [9, 9, 9, 9, 9].length)).1 =
      Except.ok () ∧
    (Spim.read true [1, 2, 3] [9, 9, 9, 9, 9]
        (Spim.loopbackEnv [1, 2, 3] [9, 9, 9, 9, 9].length)).2.1.getD 1 0 =
      [1, 2, 3].getD 1 0 ∧
    (Spim.read true [1, 2, 3] [9, 9, 9, 9, 9]
        (Spim.loopbackEnv [1, 2, 3] [9, 9, 9, 9, 9].length)).2.1.getD 4 0 =
      Spim.orc :=
  ⟨(loopback_read true [1, 2, 3] [9, 9, 9, 9, 9] (by decide) (by decide)).1,
   (loopback_read true [1, 2, 3] [9, 9, 9, 9, 9] (by decide)
      (by decide)).2.1 1 (by decide),
   (loopback_read true [1, 2, 3] [9, 9, 9, 9, 9] (by decide)
      (by decide)).2.2 4 (by decide) (by decide)⟩

/-- C10: a valid `Spim::write` programs the receive DMA channel with a
byte count of `0`, never writes its pointer register, never reads the
receive amount register, and its outcome is decided by the
transmit-amount comparison alone. -/
theorem write_frames_receive_channel (cs : Bool) (tx : List Nat)
    (env : Spim.Env) (htx : tx.length ≤ 255) :
    Ev.regWrite Reg.rxdMaxcnt 0 ∈ (Spim.write cs tx env).2.2 ∧
    (∀ v, Ev.regWrite Reg.rxdPtr v ∉ (Spim.write cs tx env).2.2) ∧
    (∀ v, Ev.regRead Reg.rxdAmount v ∉ (Spim.write cs tx env).2.2) ∧
    (Spim.write cs tx env).1 =
      (if env.txAmount = tx.length then Except.ok ()
       else Except.error SPIError.transmit) := by
  refine ⟨?_, ?_, ?_, ?_⟩
  · unfold Spim.write
    split_ifs <;> first | omega | simp
  · intro v
    unfold Spim.write
    split_ifs <;> first | omega | simp
  · intro v
    unfold Spim.write
    split_ifs <;> first | omega | simp
  · unfold Spim.write
    split_ifs <;> first | omega | rfl

/-- Witness for C10 at a concrete matching write: the trace programs the
receive byte count to `0` and never writes the receive pointer. -/
theorem write_frames_receive_channel_witness :
    Ev.regWrite Reg.rxdMaxcnt 0 ∈ (Spim.write true [7] ⟨1, 0, []⟩).2.2 ∧
    Ev.regWrite Reg.rxdPtr 0 ∉ (Spim.write true [7] ⟨1, 0, []⟩).2.2 :=
  ⟨(write_frames_receive_channel true [7] ⟨1, 0, []⟩ (by decide)).1,
   (write_frames_receive_channel true [7] ⟨1, 0, []⟩ (by decide)).2.1 0⟩

end LoopbackAndFrameTheorems
